import Mathlib

/-!
Shallow embedding of the garden seedling pipeline (Go sources) in Lean 4.

The embedding models, from the source:
  - `cleanFilePath` (src/unnamed/part_000 lines 1148-1153, src/garden/main.go
    lines 481-486, src/unnamed/part_001 lines 250-255): filename sanitization;
  - the `gptThread` orchestrator loop (src/unnamed/part_000 lines 1476-1852):
    stage sequencing, error budget, database step writes, diagnostic folding;
  - `runSeedling` (src/unnamed/part_000 lines 1878-1973): the quality gate
    loop, fence stripping, artifact write, verifier run, git commit;
  - the diagnostic truncation in `gptThread` (lines 1824-1831).

Go strings are modelled as Lean `String`, manipulated through their
underlying `List Char`.  External effects (oracle calls, subprocesses, the
database) are modelled by explicit inputs and effect traces.
-/

namespace Garden

/-! ## Step name constants (src/unnamed/part_000 lines 892-900) -/

def SeedlingStepProtobufs : String := "SeedlingStepProtobufs"

def SeedlingStepServer : String := "SeedlingStepServer"

def SeedlingStepDockerfile : String := "SeedlingStepDockerfile"

def SeedlingStepExampleClientCall : String := "SeedlingStepExampleClientCall"

def SeedlingStepComplete : String := "SeedlingStepComplete"

/-- The fixed stage order of the orchestrator, the `steps` slice of
`gptThread` (src/unnamed/part_000 lines 1481-1487). -/
def stepsOrder : List String :=
  [SeedlingStepProtobufs, SeedlingStepServer, SeedlingStepDockerfile,
   SeedlingStepExampleClientCall, SeedlingStepComplete]

/-! ## Character-level helpers for Go string functions -/

/-- Go `unicode.IsSpace`: the White_Space property over unicode scalar
values. -/
def goIsSpace (c : Char) : Bool :=
  let n := c.toNat
  (9 ≤ n && n ≤ 13) || n = 32 || n = 0x85 || n = 0xA0 || n = 0x1680 ||
    (0x2000 ≤ n && n ≤ 0x200A) || n = 0x2028 || n = 0x2029 || n = 0x202F ||
    n = 0x205F || n = 0x3000

/-- Go `strings.TrimSpace` on the character list: drop unicode whitespace
from both ends. -/
def goTrimSpaceList (l : List Char) : List Char :=
  ((l.dropWhile goIsSpace).reverse.dropWhile goIsSpace).reverse

/-- Go `strings.TrimSpace`. -/
def goTrimSpace (s : String) : String :=
  ⟨goTrimSpaceList s.data⟩

/-- Go regexp `\w` (ASCII-only): `[0-9A-Za-z_]`. -/
def isWordChar (c : Char) : Bool :=
  let n := c.toNat
  (48 ≤ n && n ≤ 57) || (65 ≤ n && n ≤ 90) || (97 ≤ n && n ≤ 122) || n = 95

/-- A character survives `invalidCharsRegex.ReplaceAllString(s, "")` for the
regexp `[^\w-.]` iff it is a word character, `-` (45) or `.` (46). -/
def keepChar (c : Char) : Bool :=
  isWordChar c || c.toNat = 45 || c.toNat = 46

/-- ASCII lowering, the behaviour of Go `strings.ToLower` on the ASCII range
(after the regexp filter only ASCII characters remain, where `unicode.ToLower`
is exactly this function). -/
def goToLower (c : Char) : Char :=
  if 65 ≤ c.toNat ∧ c.toNat ≤ 90 then Char.ofNat (c.toNat + 32) else c

/-- `cleanFilePath` (src/unnamed/part_000 lines 1148-1153): trim surrounding
space, replace each space with `_`, delete every character matching
`[^\w-.]`, lowercase the rest. -/
def cleanFilePath (file : String) : String :=
  ⟨(((goTrimSpaceList file.data).map
      (fun c => if c = ' ' then '_' else c)).filter keepChar).map goToLower⟩

/-- The safe filename alphabet of the spec: lowercase letters, digits,
`-`, `_`, `.`. -/
def safeFileChar (c : Char) : Prop :=
  (97 ≤ c.toNat ∧ c.toNat ≤ 122) ∨ (48 ≤ c.toNat ∧ c.toNat ≤ 57) ∨
    c.toNat = 45 ∨ c.toNat = 95 ∨ c.toNat = 46

/-! ## Line splitting and joining (Go strings.Split / strings.Join on "\n") -/

/-- Go `strings.Split(s, sep)` for a one-character separator, on character
lists.  `splitOnChar c [] = [[]]`, matching Go where splitting the empty
string yields one empty field. -/
def splitOnChar (c : Char) : List Char → List (List Char)
  | [] => [[]]
  | x :: xs =>
    if x = c then [] :: splitOnChar c xs
    else (x :: (splitOnChar c xs).headI) :: (splitOnChar c xs).tail

/-- Go `strings.Join(parts, sep)` for a one-character separator, on
character lists. -/
def intercalateChar (c : Char) : List (List Char) → List Char
  | [] => []
  | [l] => l
  | l :: l' :: ls => l ++ c :: intercalateChar c (l' :: ls)

/-- Number of newline-separated lines of a string, the length of Go
`strings.Split(s, "\n")`. -/
def numLines (s : String) : Nat :=
  (splitOnChar '\n' s.data).length

/-- The diagnostic truncation of `gptThread` (src/unnamed/part_000 lines
1824-1828): split on newlines, keep only the last `n` lines, re-join.  The
orchestrator variant at line 1825 uses `n = 25`; the variant at line 738
uses `n = 10`. -/
def truncateLast (n : Nat) (s : String) : String :=
  ⟨intercalateChar '\n'
    (if n < (splitOnChar '\n' s.data).length then
      (splitOnChar '\n' s.data).drop ((splitOnChar '\n' s.data).length - n)
    else splitOnChar '\n' s.data)⟩

/-- The diagnostic text folded into the prompt on a failed attempt
(src/unnamed/part_000 lines 1824-1831): the truncated combined output, or
the Go error text when that truncation is empty. -/
def foldDiag (output errText : String) : String :=
  if truncateLast 25 output = "" then errText else truncateLast 25 output

/-! ## Fence stripping (runSeedling, src/unnamed/part_000 lines 1934-1936) -/

/-- Go `strings.TrimPrefix(s, p)`: drop `p` from the front when present,
otherwise return `s` unchanged. -/
def goTrimHead (s p : String) : String :=
  if s.data.take p.data.length = p.data then ⟨s.data.drop p.data.length⟩ else s

/-- Go `strings.TrimSuffix(s, p)`: drop `p` from the end when present,
otherwise return `s` unchanged. -/
def goTrimTail (s p : String) : String :=
  if p.data.length ≤ s.data.length ∧
      s.data.drop (s.data.length - p.data.length) = p.data then
    ⟨s.data.take (s.data.length - p.data.length)⟩
  else s

/-- The cleaning of the oracle output in `runSeedling` (lines 1934-1936):
trim the content-type fence opener, the closing fence, then surrounding
whitespace. -/
def stripFence (codeType gptOut : String) : String :=
  goTrimSpace (goTrimTail (goTrimHead gptOut ("```" ++ codeType)) "```")

/-! ## Quality gate (runSeedling, src/unnamed/part_000 lines 1889-1933) -/

/-- The parsed quality verdict (src/unnamed/part_000 lines 955-959). -/
structure QualityCheck where
  quality : String
  reason : String
  suggestions : String
deriving DecidableEq

/-- The error produced by `QualityCheck.Error()` for a non-good verdict
(src/unnamed/part_000 lines 961-966). -/
def QualityCheck.errMsg (qc : QualityCheck) : String :=
  "Quality check failed for this reason: " ++ qc.reason ++
    ". To improve the quality, we suggest you: " ++ qc.suggestions

/-- One response of the oracle to a quality-gate request: a transport
error from `gpt`, a response `json.Unmarshal` rejects, or a parsed
verdict. -/
inductive GateResp where
  | transportErr (msg : String)
  | unparseable
  | verdict (qc : QualityCheck)

/-- The quality-gate loop of `runSeedling` (lines 1890-1932), driven by the
oracle's successive gate responses `resps`.  Arguments: remaining internal
allowance (`maxErrs - errs`, initially 5) and the number of gate calls made
so far (initially 0).  Returns the total number of gate calls and `none`
when the verdict is accepted, or `some errText` when the loop returns an
error. -/
def qualityLoop (resps : Nat → GateResp) : Nat → Nat → Nat × Option String
  | 0, idx => (idx, some "max errors exceeded")
  | fuel + 1, idx =>
    match resps idx with
    | .transportErr e => (idx + 1, some e)
    | .unparseable => qualityLoop resps fuel (idx + 1)
    | .verdict qc =>
      if qc.quality = "good" then (idx + 1, none) else (idx + 1, some qc.errMsg)

/-! ## runSeedling (src/unnamed/part_000 lines 1878-1973) -/

/-- Externally visible actions of one `runSeedling` call, in program
order. -/
inductive Effect where
  | gateCall
  | fileWrite (content : String)
  | verifierRun
  | gitCommit
deriving DecidableEq

/-- Return value and effect trace of one `runSeedling` call: `output` and
`err` model the Go pair `(string, error)`. -/
structure RunRet where
  effects : List Effect
  output : String
  err : Option String
deriving DecidableEq

/-- Shallow embedding of `runSeedling` (lines 1878-1973).  For the Server
step the quality-gate loop runs first (lines 1889-1933); then the output is
fence-stripped and rejected when empty (lines 1934-1939); then the artifact
is written (line 1941) and the build command runs (line 1951), whose
failure returns its combined output; finally the tree is committed (lines
1956-1970).  `build = none` models a verifier success, `build = some (out,
errText)` a failure with combined output `out`; `git = none` models a
successful commit, `git = some errText` a failed one. -/
def runSeedlingM (step codeType gptOut : String) (resps : Nat → GateResp)
    (build : Option (String × String)) (git : Option String) : RunRet :=
  match (if step = SeedlingStepServer then qualityLoop resps 5 0 else (0, none)) with
  | (gc, some e) => ⟨List.replicate gc Effect.gateCall, "", some e⟩
  | (gc, none) =>
    if stripFence codeType gptOut = "" then
      ⟨List.replicate gc Effect.gateCall, "", some "no code to run"⟩
    else
      match build with
      | some be =>
        ⟨List.replicate gc Effect.gateCall ++
          [.fileWrite (stripFence codeType gptOut), .verifierRun], be.1, some be.2⟩
      | none =>
        match git with
        | some ge =>
          ⟨List.replicate gc Effect.gateCall ++
            [.fileWrite (stripFence codeType gptOut), .verifierRun], "", some ge⟩
        | none =>
          ⟨List.replicate gc Effect.gateCall ++
            [.fileWrite (stripFence codeType gptOut), .verifierRun, .gitCommit], "", none⟩

/-! ## gptThread (src/unnamed/part_000 lines 1476-1852) -/

/-- The content-type tag of each stage (the `codeType` assignments in the
switch at lines 1545-1785). -/
def codeTypeFor (step : String) : String :=
  if step = SeedlingStepProtobufs then "proto"
  else if step = SeedlingStepServer then "go"
  else if step = SeedlingStepDockerfile then "dockerfile"
  else if step = SeedlingStepExampleClientCall then "bash"
  else ""

/-- External inputs consumed by one iteration of the `gptThread` loop:
`oracle = none` models a transport failure of the generation call (or an
abort while building the prompt), `oracle = some out` its returned text;
`gateResps` drives the quality-gate loop; `build` and `git` are as in
`runSeedlingM`; `dbOk` tells whether the `UPDATE seedlings SET step` call
succeeds. -/
structure AttemptInput where
  oracle : Option String
  gateResps : Nat → GateResp
  build : Option (String × String)
  git : Option String
  dbOk : Bool

/-- State of one `gptThread` worker: the stage index `step`, the error
counter `errs`, the `errMode` flag, the diagnostics folded into the prompt,
the values durably written to the `seedlings.step` column in order, the
accumulated `runSeedling` effects, the number of attempts begun, and
whether the loop has returned. -/
structure GptState where
  step : Nat
  errs : Nat
  errMode : Bool
  folded : List String
  writes : List String
  effects : List Effect
  attempts : Nat
  halted : Bool
deriving DecidableEq

/-- The initial worker state (`step = 0`, `errs = 0`, lines 1480, 1489). -/
def gptInit : GptState :=
  ⟨0, 0, false, [], [], [], 0, false⟩

/-- One iteration of the `gptThread` loop (lines 1495-1851).  At the
Complete stage the loop launches the container and breaks (lines
1496-1537).  A generation transport error returns immediately (lines
1800-1804).  A `runSeedling` error increments `errs`, aborts when the
budget is exceeded (lines 1816-1822), otherwise folds the truncated
diagnostic into the prompt and retries the same stage (lines 1824-1835).
On success the next stage is durably written before the stage index
advances (lines 1838-1849); a failed write aborts the worker. -/
def gptIter (maxErrs : Nat) (s : GptState) (a : AttemptInput) : GptState :=
  if s.halted then s
  else if stepsOrder.getD s.step "" = SeedlingStepComplete then { s with halted := true }
  else
    match a.oracle with
    | none => { s with halted := true }
    | some gptOut =>
      match runSeedlingM (stepsOrder.getD s.step "")
          (codeTypeFor (stepsOrder.getD s.step "")) gptOut a.gateResps a.build a.git with
      | ⟨effs, output, some e⟩ =>
        if maxErrs < s.errs + 1 then
          { s with effects := s.effects ++ effs, attempts := s.attempts + 1,
                   errs := s.errs + 1, halted := true }
        else
          { s with effects := s.effects ++ effs, attempts := s.attempts + 1,
                   errs := s.errs + 1, errMode := true,
                   folded := s.folded ++ [foldDiag output e] }
      | ⟨effs, _, none⟩ =>
        if a.dbOk then
          { s with effects := s.effects ++ effs, attempts := s.attempts + 1,
                   writes := s.writes ++ [stepsOrder.getD (s.step + 1) ""],
                   step := s.step + 1 }
        else
          { s with effects := s.effects ++ effs, attempts := s.attempts + 1,
                   writes := s.writes ++ [stepsOrder.getD (s.step + 1) ""],
                   halted := true }

/-- A whole `gptThread` run from the initial state, driven by a list of
per-iteration inputs.  The variant at line 1479 uses `maxErrs = 15`, the
variant at line 606 uses `maxErrs = 5`. -/
def gptRun (maxErrs : Nat) (inputs : List AttemptInput) : GptState :=
  inputs.foldl (gptIter maxErrs) gptInit

/-- Invariant tying a worker's durable write history to its stage index:
the values written to `seedlings.step` are exactly the consecutive stages
after Protobufs up to the current one. -/
def writesInv (s : GptState) : Prop :=
  s.step ≤ 4 ∧ ∃ k, k ≤ 4 ∧ s.writes = (stepsOrder.drop 1).take k ∧
    (s.halted = false → k = s.step)

/-- A concrete attempt input whose oracle answers and whose verification
(build) fails; used to instantiate universally quantified theorems. -/
def failInput : AttemptInput :=
  ⟨some "x", fun _ => GateResp.unparseable, some ("boom", "exit status 1"), none, true⟩

/-- A concrete attempt input whose generation oracle call fails with a
transport error. -/
def abortInput : AttemptInput :=
  ⟨none, fun _ => GateResp.unparseable, none, none, true⟩

/-! ## Verification subprocess construction (src/unnamed/part_000 lines
1541-1798) -/

/-- A constructed `exec.Cmd`.  `cancelBound` records whether the command
was built with `exec.CommandContext` (which would tie the subprocess to a
cancellable/timeout context); `exec.Command` leaves it unbounded. -/
structure ExecCmd where
  program : String
  args : List String
  dir : String
  cancelBound : Bool
deriving DecidableEq

/-- The per-stage verification command exactly as `gptThread` constructs it
(the `cmdCmd`/`cmdArgs` switch at lines 1545-1785 and the `exec.Command`
call with working directory at lines 1793-1798).  `darwinArm` selects the
`docker buildx` variant (lines 1739-1756).  The terminal stage has no
verification command. -/
def buildCmdFor (name step : String) (darwinArm : Bool) : Option ExecCmd :=
  if step = SeedlingStepProtobufs then
    some ⟨"protoc", ["-I=.", "--go_out=.", "--go-grpc_out=.",
      "protobufs/" ++ name ++ ".proto"], "repos/default/" ++ name, false⟩
  else if step = SeedlingStepServer then
    some ⟨"sh", ["-c", "go get ./... && go build -o /tmp/server ./server"],
      "repos/default/" ++ name, false⟩
  else if step = SeedlingStepDockerfile then
    if darwinArm then
      some ⟨"docker", ["buildx", "build", "--platform", "linux/amd64", "-t", name, "."],
        "repos/default/" ++ name, false⟩
    else
      some ⟨"docker", ["build", "-t", name, "."], "repos/default/" ++ name, false⟩
  else if step = SeedlingStepExampleClientCall then
    some ⟨"true", [], "repos/default/" ++ name, false⟩
  else none

theorem charToNat_ofNat (n : Nat) (h : n.isValidChar) :
    (Char.ofNat n).toNat = n := by
  simp [Char.ofNat, h, Char.ofNatAux, Char.toNat, UInt32.toNat,
    BitVec.toNat_ofNatLt]

theorem keepChar_safe (c : Char) (h : keepChar c = true) :
    safeFileChar (goToLower c) := by
  unfold keepChar isWordChar at h
  unfold goToLower safeFileChar
  by_cases hu : 65 ≤ c.toNat ∧ c.toNat ≤ 90
  · rw [if_pos hu]
    have hv : (c.toNat + 32).isValidChar := Or.inl (by omega)
    rw [charToNat_ofNat _ hv]
    left
    omega
  · rw [if_neg hu]
    simp only [Bool.or_eq_true, Bool.and_eq_true, decide_eq_true_eq] at h
    omega

/-! ## Lemmas about line splitting and joining -/

theorem data_mk (l : List Char) : (String.mk l).data = l := rfl

theorem splitOnChar_ne_nil (c : Char) (l : List Char) : splitOnChar c l ≠ [] := by
  induction l with
  | nil => simp [splitOnChar]
  | cons x xs ih =>
    by_cases hx : x = c <;> simp [splitOnChar, hx]

theorem not_mem_of_mem_splitOnChar (c : Char) (l : List Char) :
    ∀ p ∈ splitOnChar c l, c ∉ p := by
  induction l with
  | nil => simp [splitOnChar]
  | cons x xs ih =>
    intro p hp
    cases hsp : splitOnChar c xs with
    | nil => exact absurd hsp (splitOnChar_ne_nil c xs)
    | cons hd tl =>
      by_cases hx : x = c
      · simp only [splitOnChar, if_pos hx, List.mem_cons] at hp
        rcases hp with rfl | hp
        · simp
        · exact ih p hp
      · simp only [splitOnChar, if_neg hx, hsp, List.headI, List.tail,
          List.mem_cons] at hp
        rcases hp with rfl | hp
        · intro hmem
          rcases List.mem_cons.mp hmem with hc | hc
          · exact hx hc.symm
          · exact ih hd (by rw [hsp]; exact List.mem_cons_self hd tl) hc
        · exact ih p (by rw [hsp]; exact List.mem_cons_of_mem hd hp)

theorem intercalateChar_splitOnChar (c : Char) (l : List Char) :
    intercalateChar c (splitOnChar c l) = l := by
  induction l with
  | nil => rfl
  | cons x xs ih =>
    cases hsp : splitOnChar c xs with
    | nil => exact absurd hsp (splitOnChar_ne_nil c xs)
    | cons hd tl =>
      rw [hsp] at ih
      by_cases hx : x = c
      · subst hx
        simp only [splitOnChar, if_pos rfl, hsp]
        show x :: intercalateChar x (hd :: tl) = x :: xs
        rw [ih]
      · simp only [splitOnChar, if_neg hx, hsp, List.headI, List.tail]
        cases tl with
        | nil =>
          show x :: hd = x :: xs
          have h2 : hd = xs := ih
          rw [h2]
        | cons t1 t2 =>
          show (x :: hd) ++ c :: intercalateChar c (t1 :: t2) = x :: xs
          have h2 : hd ++ c :: intercalateChar c (t1 :: t2) = xs := ih
          rw [List.cons_append, h2]

theorem splitOnChar_cons_self (c : Char) (t : List Char) :
    splitOnChar c (c :: t) = [] :: splitOnChar c t := by
  simp [splitOnChar]

theorem splitOnChar_append_of_not_mem (c : Char) (p t : List Char) (hp : c ∉ p) :
    splitOnChar c (p ++ t) = List.modifyHead (p ++ ·) (splitOnChar c t) := by
  induction p with
  | nil =>
    cases h : splitOnChar c t with
    | nil => exact absurd h (splitOnChar_ne_nil c t)
    | cons hd tl => simp [h]
  | cons x p' ih =>
    have hx : ¬x = c := fun hh => hp (hh ▸ List.mem_cons_self x p')
    have hp' : c ∉ p' := fun hh => hp (List.mem_cons_of_mem x hh)
    show splitOnChar c (x :: (p' ++ t)) = _
    simp only [splitOnChar, if_neg hx, ih hp']
    cases h : splitOnChar c t with
    | nil => exact absurd h (splitOnChar_ne_nil c t)
    | cons hd tl => simp

theorem splitOnChar_of_not_mem (c : Char) (p : List Char) (hp : c ∉ p) :
    splitOnChar c p = [p] := by
  induction p with
  | nil => rfl
  | cons x p' ih =>
    have hx : ¬x = c := fun hh => hp (hh ▸ List.mem_cons_self x p')
    have hp' : c ∉ p' := fun hh => hp (List.mem_cons_of_mem x hh)
    simp [splitOnChar, hx, ih hp']

theorem splitOnChar_intercalateChar (c : Char) (parts : List (List Char))
    (hne : parts ≠ []) (hfree : ∀ p ∈ parts, c ∉ p) :
    splitOnChar c (intercalateChar c parts) = parts := by
  induction parts with
  | nil => exact absurd rfl hne
  | cons p rest ih =>
    cases rest with
    | nil => exact splitOnChar_of_not_mem c p (hfree p (List.mem_cons_self p []))
    | cons q rest2 =>
      show splitOnChar c (p ++ c :: intercalateChar c (q :: rest2)) = _
      rw [splitOnChar_append_of_not_mem c p _ (hfree p (List.mem_cons_self p _)),
        splitOnChar_cons_self,
        ih (by simp) (fun r hr => hfree r (List.mem_cons_of_mem p hr))]
      simp

theorem intercalateChar_two_ne_nil (c : Char) (p q : List Char)
    (rest : List (List Char)) : intercalateChar c (p :: q :: rest) ≠ [] := by
  show p ++ c :: intercalateChar c (q :: rest) ≠ []
  simp

theorem string_eq_empty_iff (s : String) : s = "" ↔ s.data = [] := by
  constructor
  · rintro rfl; rfl
  · intro h
    cases s with
    | mk d => cases h; rfl

theorem numLines_truncateLast (n : Nat) (s : String) (hn : 1 ≤ n) :
    numLines (truncateLast n s) ≤ n := by
  unfold numLines truncateLast
  rw [data_mk]
  have hfree : ∀ p ∈ splitOnChar '\n' s.data, '\n' ∉ p :=
    not_mem_of_mem_splitOnChar '\n' s.data
  by_cases hlen : n < (splitOnChar '\n' s.data).length
  · rw [if_pos hlen]
    have hkeeplen : ((splitOnChar '\n' s.data).drop
        ((splitOnChar '\n' s.data).length - n)).length = n := by
      rw [List.length_drop]; omega
    rw [splitOnChar_intercalateChar '\n' _
      (by intro hh; rw [hh] at hkeeplen; simp at hkeeplen; omega)
      (fun p hp => hfree p (List.mem_of_mem_drop hp))]
    omega
  · rw [if_neg hlen]
    rw [splitOnChar_intercalateChar '\n' _ (splitOnChar_ne_nil '\n' s.data) hfree]
    omega

theorem truncateLast_ne_empty (n : Nat) (s : String) (hn : 2 ≤ n) (hs : s ≠ "") :
    truncateLast n s ≠ "" := by
  unfold truncateLast
  intro hcon
  rw [string_eq_empty_iff, data_mk] at hcon
  by_cases hlen : n < (splitOnChar '\n' s.data).length
  · rw [if_pos hlen] at hcon
    have hkeeplen : ((splitOnChar '\n' s.data).drop
        ((splitOnChar '\n' s.data).length - n)).length = n := by
      rw [List.length_drop]; omega
    rcases hdrop : (splitOnChar '\n' s.data).drop
        ((splitOnChar '\n' s.data).length - n) with _ | ⟨p, _ | ⟨q, rest⟩⟩
    · rw [hdrop] at hkeeplen; simp at hkeeplen; omega
    · rw [hdrop] at hkeeplen; simp at hkeeplen; omega
    · rw [hdrop] at hcon
      exact intercalateChar_two_ne_nil '\n' p q rest hcon
  · rw [if_neg hlen] at hcon
    rw [intercalateChar_splitOnChar] at hcon
    exact hs (string_eq_empty_iff s |>.mpr hcon)

theorem foldDiag_of_ne_empty (output errText : String) (h : output ≠ "") :
    foldDiag output errText = truncateLast 25 output := by
  unfold foldDiag
  rw [if_neg (truncateLast_ne_empty 25 output (by omega) h)]

theorem foldDiag_empty (errText : String) : foldDiag "" errText = errText := by
  have h : truncateLast 25 "" = "" := by decide
  unfold foldDiag
  rw [h, if_pos rfl]

/-! ## Case lemmas for gptIter -/

theorem gptIter_of_halted (m : Nat) (s : GptState) (a : AttemptInput)
    (h : s.halted = true) : gptIter m s a = s := by
  unfold gptIter
  rw [if_pos h]

theorem foldl_gptIter_of_halted (m : Nat) (inputs : List AttemptInput) :
    ∀ s : GptState, s.halted = true → inputs.foldl (gptIter m) s = s := by
  induction inputs with
  | nil => intro s _; rfl
  | cons a rest ih =>
    intro s h
    rw [List.foldl_cons, gptIter_of_halted m s a h]
    exact ih s h

theorem gptIter_complete (m : Nat) (s : GptState) (a : AttemptInput)
    (hh : s.halted = false)
    (hc : stepsOrder.getD s.step "" = SeedlingStepComplete) :
    gptIter m s a = { s with halted := true } := by
  unfold gptIter
  rw [if_neg (by simp [hh]), if_pos hc]

theorem gptIter_oracle_none (m : Nat) (s : GptState) (a : AttemptInput)
    (hh : s.halted = false)
    (hnc : ¬stepsOrder.getD s.step "" = SeedlingStepComplete)
    (ho : a.oracle = none) :
    gptIter m s a = { s with halted := true } := by
  unfold gptIter
  rw [if_neg (by simp [hh]), if_neg hnc, ho]

theorem gptIter_fail (m : Nat) (s : GptState) (a : AttemptInput) (o : String)
    (effs : List Effect) (output e : String)
    (hh : s.halted = false)
    (hnc : ¬stepsOrder.getD s.step "" = SeedlingStepComplete)
    (ho : a.oracle = some o)
    (hr : runSeedlingM (stepsOrder.getD s.step "")
        (codeTypeFor (stepsOrder.getD s.step "")) o a.gateResps a.build a.git
      = ⟨effs, output, some e⟩) :
    gptIter m s a =
      if m < s.errs + 1 then
        { s with effects := s.effects ++ effs, attempts := s.attempts + 1,
                 errs := s.errs + 1, halted := true }
      else
        { s with effects := s.effects ++ effs, attempts := s.attempts + 1,
                 errs := s.errs + 1, errMode := true,
                 folded := s.folded ++ [foldDiag output e] } := by
  unfold gptIter
  rw [if_neg (by simp [hh]), if_neg hnc, ho]
  dsimp only
  rw [hr]

theorem gptIter_ok (m : Nat) (s : GptState) (a : AttemptInput) (o : String)
    (effs : List Effect) (output : String)
    (hh : s.halted = false)
    (hnc : ¬stepsOrder.getD s.step "" = SeedlingStepComplete)
    (ho : a.oracle = some o)
    (hr : runSeedlingM (stepsOrder.getD s.step "")
        (codeTypeFor (stepsOrder.getD s.step "")) o a.gateResps a.build a.git
      = ⟨effs, output, none⟩) :
    gptIter m s a =
      if a.dbOk then
        { s with effects := s.effects ++ effs, attempts := s.attempts + 1,
                 writes := s.writes ++ [stepsOrder.getD (s.step + 1) ""],
                 step := s.step + 1 }
      else
        { s with effects := s.effects ++ effs, attempts := s.attempts + 1,
                 writes := s.writes ++ [stepsOrder.getD (s.step + 1) ""],
                 halted := true } := by
  unfold gptIter
  rw [if_neg (by simp [hh]), if_neg hnc, ho]
  dsimp only
  rw [hr]

/-! ## Reduction lemmas for runSeedlingM -/

theorem runSeedlingM_not_server (step codeType o : String) (resps : Nat → GateResp)
    (build : Option (String × String)) (git : Option String)
    (hns : ¬step = SeedlingStepServer) :
    runSeedlingM step codeType o resps build git =
      if stripFence codeType o = "" then ⟨[], "", some "no code to run"⟩
      else
        match build with
        | some be => ⟨[.fileWrite (stripFence codeType o), .verifierRun], be.1, some be.2⟩
        | none =>
          match git with
          | some ge => ⟨[.fileWrite (stripFence codeType o), .verifierRun], "", some ge⟩
          | none =>
            ⟨[.fileWrite (stripFence codeType o), .verifierRun, .gitCommit], "", none⟩ := by
  unfold runSeedlingM
  rw [if_neg hns]
  rfl

theorem runSeedlingM_server_reject (codeType o : String) (resps : Nat → GateResp)
    (build : Option (String × String)) (git : Option String) (gc : Nat) (e : String)
    (hq : qualityLoop resps 5 0 = (gc, some e)) :
    runSeedlingM SeedlingStepServer codeType o resps build git =
      ⟨List.replicate gc Effect.gateCall, "", some e⟩ := by
  unfold runSeedlingM
  rw [if_pos rfl, hq]

theorem runSeedlingM_server_accept (codeType o : String) (resps : Nat → GateResp)
    (build : Option (String × String)) (git : Option String) (gc : Nat)
    (hq : qualityLoop resps 5 0 = (gc, none)) :
    runSeedlingM SeedlingStepServer codeType o resps build git =
      (if stripFence codeType o = "" then
        ⟨List.replicate gc Effect.gateCall, "", some "no code to run"⟩
      else
        match build with
        | some be =>
          ⟨List.replicate gc Effect.gateCall ++
            [.fileWrite (stripFence codeType o), .verifierRun], be.1, some be.2⟩
        | none =>
          match git with
          | some ge =>
            ⟨List.replicate gc Effect.gateCall ++
              [.fileWrite (stripFence codeType o), .verifierRun], "", some ge⟩
          | none =>
            ⟨List.replicate gc Effect.gateCall ++
              [.fileWrite (stripFence codeType o), .verifierRun, .gitCommit], "",
              none⟩) := by
  unfold runSeedlingM
  rw [if_pos rfl, hq]

theorem no_empty_write_helper (gc : Nat) (cleaned : String) (hne : ¬cleaned = "")
    (rest : List Effect) (hrest : Effect.fileWrite "" ∉ rest) :
    Effect.fileWrite "" ∉
      List.replicate gc Effect.gateCall ++ (Effect.fileWrite cleaned :: rest) := by
  intro hmem
  rcases List.mem_append.mp hmem with hrep | hlist
  · exact absurd (List.eq_of_mem_replicate hrep) (by simp)
  · rcases List.mem_cons.mp hlist with h1 | h1
    · injection h1 with h2
      exact hne h2.symm
    · exact hrest h1

theorem no_empty_fileWrite (st ct o2 : String) (resps : Nat → GateResp)
    (b : Option (String × String)) (g : Option String) :
    Effect.fileWrite "" ∉ (runSeedlingM st ct o2 resps b g).effects := by
  by_cases hsv : st = SeedlingStepServer
  · subst hsv
    rcases hq : qualityLoop resps 5 0 with ⟨gc, e?⟩
    cases e? with
    | some e =>
      rw [runSeedlingM_server_reject ct o2 resps b g gc e hq]
      show Effect.fileWrite "" ∉ List.replicate gc Effect.gateCall
      intro hmem
      exact absurd (List.eq_of_mem_replicate hmem) (by simp)
    | none =>
      rw [runSeedlingM_server_accept ct o2 resps b g gc hq]
      by_cases hs : stripFence ct o2 = ""
      · rw [if_pos hs]
        show Effect.fileWrite "" ∉ List.replicate gc Effect.gateCall
        intro hmem
        exact absurd (List.eq_of_mem_replicate hmem) (by simp)
      · rw [if_neg hs]
        cases b with
        | some be =>
          exact no_empty_write_helper gc _ hs _ (by simp)
        | none =>
          cases g with
          | some ge => exact no_empty_write_helper gc _ hs _ (by simp)
          | none => exact no_empty_write_helper gc _ hs _ (by simp)
  · rw [runSeedlingM_not_server st ct o2 resps b g hsv]
    by_cases hs : stripFence ct o2 = ""
    · rw [if_pos hs]
      show Effect.fileWrite "" ∉ ([] : List Effect)
      simp
    · rw [if_neg hs]
      cases b with
      | some be =>
        exact no_empty_write_helper 0 _ hs _ (by simp)
      | none =>
        cases g with
        | some ge => exact no_empty_write_helper 0 _ hs _ (by simp)
        | none => exact no_empty_write_helper 0 _ hs _ (by simp)

/-! ## Lemmas for the quality-gate loop -/

theorem qualityLoop_skip_unparseable (resps : Nat → GateResp) :
    ∀ k fuel idx, k ≤ fuel →
      (∀ i, i < k → resps (idx + i) = GateResp.unparseable) →
      qualityLoop resps fuel idx = qualityLoop resps (fuel - k) (idx + k) := by
  intro k
  induction k with
  | zero => intro fuel idx _ _; simp
  | succ k ih =>
    intro fuel idx hk hunp
    cases fuel with
    | zero => omega
    | succ f =>
      have h0 : resps idx = GateResp.unparseable := by
        have := hunp 0 (by omega)
        simpa using this
      have hstep : qualityLoop resps (f + 1) idx = qualityLoop resps f (idx + 1) := by
        conv_lhs => unfold qualityLoop
        rw [h0]
      rw [hstep, ih f (idx + 1) (by omega) (fun i hi => by
        have := hunp (i + 1) (by omega)
        rwa [show idx + (i + 1) = idx + 1 + i by omega] at this)]
      rw [show f + 1 - (k + 1) = f - k by omega,
        show idx + (k + 1) = idx + 1 + k by omega]

theorem qualityLoop_unparseable_then_verdict (resps : Nat → GateResp) (k : Nat)
    (qc : QualityCheck) (hk : k < 5)
    (hunp : ∀ i, i < k → resps i = GateResp.unparseable)
    (hv : resps k = GateResp.verdict qc) :
    qualityLoop resps 5 0 =
      (k + 1, if qc.quality = "good" then none else some qc.errMsg) := by
  rw [qualityLoop_skip_unparseable resps k 5 0 (by omega)
    (fun i hi => by simpa using hunp i hi)]
  rw [show (5 : Nat) - k = (4 - k) + 1 by omega, show 0 + k = k by omega]
  conv_lhs => unfold qualityLoop
  rw [hv]
  by_cases hg : qc.quality = "good" <;> simp [hg]

theorem qualityLoop_all_unparseable (resps : Nat → GateResp)
    (h : ∀ i, i < 5 → resps i = GateResp.unparseable) :
    qualityLoop resps 5 0 = (5, some "max errors exceeded") := by
  rw [qualityLoop_skip_unparseable resps 5 5 0 (le_refl 5)
    (fun i hi => by simpa using h i hi)]
  rfl

/-! ## The write-history invariant -/

theorem writes_extend (i : Nat) (hi : i ≤ 3) :
    (stepsOrder.drop 1).take i ++ [stepsOrder.getD (i + 1) ""]
      = (stepsOrder.drop 1).take (i + 1) := by
  interval_cases i <;> decide

theorem gptIter_writesInv (m : Nat) (s : GptState) (a : AttemptInput)
    (h : writesInv s) : writesInv (gptIter m s a) := by
  obtain ⟨h1, k, hk, hw, hcond⟩ := h
  by_cases hh : s.halted = true
  · rw [gptIter_of_halted m s a hh]
    exact ⟨h1, k, hk, hw, hcond⟩
  · replace hh : s.halted = false := by simpa using hh
    by_cases hc : stepsOrder.getD s.step "" = SeedlingStepComplete
    · rw [gptIter_complete m s a hh hc]
      exact ⟨h1, k, hk, hw, by simp⟩
    · cases ho : a.oracle with
      | none =>
        rw [gptIter_oracle_none m s a hh hc ho]
        exact ⟨h1, k, hk, hw, by simp⟩
      | some o =>
        have hks : k = s.step := hcond hh
        have hstep3 : s.step ≤ 3 := by
          rcases Nat.lt_or_ge s.step 4 with h4 | h4
          · omega
          · exfalso
            apply hc
            have h44 : s.step = 4 := by omega
            rw [h44]
            rfl
        rcases hr : runSeedlingM (stepsOrder.getD s.step "")
            (codeTypeFor (stepsOrder.getD s.step "")) o a.gateResps a.build a.git
          with ⟨effs, output, err⟩
        cases err with
        | some e =>
          rw [gptIter_fail m s a o effs output e hh hc ho hr]
          by_cases hb : m < s.errs + 1
          · rw [if_pos hb]
            exact ⟨h1, k, hk, hw, by simp⟩
          · rw [if_neg hb]
            exact ⟨h1, k, hk, hw, fun _ => hks⟩
        | none =>
          rw [gptIter_ok m s a o effs output hh hc ho hr]
          by_cases hd : a.dbOk = true
          · rw [if_pos hd]
            refine ⟨by simp; omega, k + 1, by omega, ?_, ?_⟩
            · show s.writes ++ [stepsOrder.getD (s.step + 1) ""] = _
              rw [hw, hks]
              exact writes_extend s.step hstep3
            · intro _
              show k + 1 = s.step + 1
              rw [hks]
          · rw [if_neg hd]
            refine ⟨h1, k + 1, by omega, ?_, by simp⟩
            show s.writes ++ [stepsOrder.getD (s.step + 1) ""] = _
            rw [hw, hks]
            exact writes_extend s.step hstep3

theorem foldl_writesInv (m : Nat) (inputs : List AttemptInput) :
    ∀ s : GptState, writesInv s → writesInv (inputs.foldl (gptIter m) s) := by
  induction inputs with
  | nil => intro s h; exact h
  | cons a rest ih =>
    intro s h
    exact ih _ (gptIter_writesInv m s a h)

/-! ## The always-failing-verifier run -/

theorem gptRun_all_fail_aux (m : Nat) (inputs : List AttemptInput) :
    ∀ s : GptState, s.halted = false → s.step = 0 → s.errs ≤ m →
      (∀ a ∈ inputs, (∃ o, a.oracle = some o ∧ ¬stripFence "proto" o = "") ∧
        ∃ be, a.build = some be) →
      (inputs.foldl (gptIter m) s).writes = s.writes ∧
        (inputs.foldl (gptIter m) s).step = 0 ∧
        (inputs.foldl (gptIter m) s).errs = min (s.errs + inputs.length) (m + 1) ∧
        ((inputs.foldl (gptIter m) s).halted = true ↔
          m + 1 ≤ s.errs + inputs.length) := by
  induction inputs with
  | nil =>
    intro s hh hs0 he _
    refine ⟨rfl, hs0, ?_, ?_⟩
    · show s.errs = min (s.errs + 0) (m + 1)
      omega
    · show s.halted = true ↔ m + 1 ≤ s.errs + 0
      rw [hh]
      constructor
      · intro hcon; cases hcon
      · intro hcon; omega
  | cons a rest ih =>
    intro s hh hs0 he hall
    obtain ⟨⟨o, ho, hne⟩, be, hb⟩ := hall a (List.mem_cons_self a rest)
    have hrest := fun x hx => hall x (List.mem_cons_of_mem a hx)
    have hnc : ¬stepsOrder.getD s.step "" = SeedlingStepComplete := by
      rw [hs0]; decide
    have hct : codeTypeFor (stepsOrder.getD s.step "") = "proto" := by
      rw [hs0]; decide
    have hsp : stepsOrder.getD s.step "" = SeedlingStepProtobufs := by
      rw [hs0]; rfl
    have hr : runSeedlingM (stepsOrder.getD s.step "")
        (codeTypeFor (stepsOrder.getD s.step "")) o a.gateResps a.build a.git
        = ⟨[Effect.fileWrite (stripFence "proto" o), Effect.verifierRun],
            be.1, some be.2⟩ := by
      rw [hct, hsp, runSeedlingM_not_server _ _ _ _ _ _ (by decide),
        if_neg hne, hb]
    rw [List.foldl_cons, gptIter_fail m s a o _ _ _ hh hnc ho hr]
    by_cases hbud : m < s.errs + 1
    · rw [if_pos hbud]
      rw [foldl_gptIter_of_halted m rest _ rfl]
      refine ⟨rfl, hs0, ?_, ?_⟩
      · show s.errs + 1 = min (s.errs + (a :: rest).length) (m + 1)
        show s.errs + 1 = min (s.errs + (rest.length + 1)) (m + 1)
        omega
      · show true = true ↔ m + 1 ≤ s.errs + (a :: rest).length
        show true = true ↔ m + 1 ≤ s.errs + (rest.length + 1)
        constructor
        · intro; omega
        · intro; rfl
    · rw [if_neg hbud]
      obtain ⟨hw2, hs2, he2, hh2⟩ := ih { s with
          effects := s.effects ++ [Effect.fileWrite (stripFence "proto" o),
            Effect.verifierRun],
          attempts := s.attempts + 1, errs := s.errs + 1, errMode := true,
          folded := s.folded ++ [foldDiag be.1 be.2] }
        hh hs0 (show s.errs + 1 ≤ m by omega) hrest
    -- the updated record has errs = s.errs + 1 and writes = s.writes
      refine ⟨hw2, hs2, ?_, ?_⟩
      · rw [he2]
        show min (s.errs + 1 + rest.length) (m + 1)
          = min (s.errs + (rest.length + 1)) (m + 1)
        omega
      · rw [hh2]
        show m + 1 ≤ s.errs + 1 + rest.length ↔ m + 1 ≤ s.errs + (rest.length + 1)
        omega

end Garden

/-- C10: for every input string, every character of `cleanFilePath`
belongs to the safe filename alphabet `{a-z, 0-9, -, _, .}`: in particular
no space and no uppercase letter survives sanitization. -/
theorem Garden.cleanFilePath_safe (s : String) :
    ∀ c ∈ (Garden.cleanFilePath s).data, Garden.safeFileChar c := by
  intro c hc
  unfold Garden.cleanFilePath at hc
  simp only [List.mem_map, List.mem_filter] at hc
  obtain ⟨c', ⟨_, hkeep⟩, rfl⟩ := hc
  exact Garden.keepChar_safe c' hkeep

/-- Witness for C10 at a concrete input: `cleanFilePath "My File!.txt" =
"my_file.txt"` and its first character is in the safe alphabet. -/
theorem Garden.cleanFilePath_safe_witness :
    Garden.cleanFilePath "My File!.txt" = "my_file.txt" ∧
      Garden.safeFileChar 'm' :=
  ⟨by decide, Garden.cleanFilePath_safe "My File!.txt" 'm' (by decide)⟩

/-- C1: for every task and every sequence of oracle/verifier outcomes, the
sequence of stage values durably written to the seedlings.step column — the
Protobufs value written at task creation followed by the UPDATE writes of
`gptThread` — is a prefix of the fixed stage order (Protobufs, Server,
Dockerfile, ExampleClientCall, Complete), each durable write advancing by
exactly one position: non-decreasing, no stage skipped, no stage repeated
after it has advanced. -/
theorem Garden.gptThread_writes_stage_order (maxErrs : Nat)
    (inputs : List Garden.AttemptInput) :
    ∃ k, k ≤ 4 ∧
      (Garden.gptRun maxErrs inputs).writes = (Garden.stepsOrder.drop 1).take k ∧
      Garden.SeedlingStepProtobufs :: (Garden.gptRun maxErrs inputs).writes
        = Garden.stepsOrder.take (k + 1) := by
  unfold Garden.gptRun
  obtain ⟨-, k, hk, hw, -⟩ :=
    Garden.foldl_writesInv maxErrs inputs Garden.gptInit
      ⟨by decide, 0, by decide, rfl, fun _ => rfl⟩
  refine ⟨k, hk, hw, ?_⟩
  rw [hw]
  interval_cases k <;> decide

/-- C2: when the verifier fails on every attempt, the error counter is
incremented once per failed attempt and reaches exactly maxErrs + 1 when
the task is marked permanently failed (the worker halts), and no
stage-advance write to seedlings.step ever occurs; the stage index never
moves. -/
theorem Garden.verifier_always_fails_budget (maxErrs : Nat)
    (inputs : List Garden.AttemptInput)
    (hfail : ∀ a ∈ inputs,
      (∃ o, a.oracle = some o ∧ ¬Garden.stripFence "proto" o = "") ∧
        ∃ be, a.build = some be) :
    (Garden.gptRun maxErrs inputs).writes = [] ∧
      (Garden.gptRun maxErrs inputs).step = 0 ∧
      (Garden.gptRun maxErrs inputs).errs = min inputs.length (maxErrs + 1) ∧
      ((Garden.gptRun maxErrs inputs).halted = true ↔
        maxErrs + 1 ≤ inputs.length) := by
  unfold Garden.gptRun
  obtain ⟨h1, h2, h3, h4⟩ :=
    Garden.gptRun_all_fail_aux maxErrs inputs Garden.gptInit rfl rfl
      (Nat.zero_le maxErrs) hfail
  refine ⟨h1, h2, ?_, ?_⟩
  · rw [h3]
    show min (0 + inputs.length) (maxErrs + 1) = min inputs.length (maxErrs + 1)
    omega
  · rw [h4]
    show maxErrs + 1 ≤ 0 + inputs.length ↔ maxErrs + 1 ≤ inputs.length
    omega

/-- Witness for C2 at a concrete run: budget 15, sixteen failing attempts. -/
theorem Garden.verifier_always_fails_budget_witness :
    (Garden.gptRun 15 (List.replicate 16 Garden.failInput)).writes = [] ∧
      (Garden.gptRun 15 (List.replicate 16 Garden.failInput)).step = 0 ∧
      (Garden.gptRun 15 (List.replicate 16 Garden.failInput)).errs
        = min (List.replicate 16 Garden.failInput).length (15 + 1) ∧
      ((Garden.gptRun 15 (List.replicate 16 Garden.failInput)).halted = true ↔
        15 + 1 ≤ (List.replicate 16 Garden.failInput).length) :=
  Garden.verifier_always_fails_budget 15 _ (fun a ha => by
    rw [List.eq_of_mem_replicate ha]
    exact ⟨⟨"x", rfl, by decide⟩, ⟨("boom", "exit status 1"), rfl⟩⟩)

/-- C5: a transport error from the generation oracle call aborts the task
immediately: the worker halts, no retry is attempted (no further attempt is
begun), the error counter is not incremented, and the durable writes and
the artifact/commit effect trace never change again. -/
theorem Garden.oracle_transport_error_aborts (maxErrs : Nat)
    (s : Garden.GptState) (a : Garden.AttemptInput)
    (rest : List Garden.AttemptInput)
    (hh : s.halted = false)
    (hnc : ¬Garden.stepsOrder.getD s.step "" = Garden.SeedlingStepComplete)
    (ho : a.oracle = none) :
    ((a :: rest).foldl (Garden.gptIter maxErrs) s).halted = true ∧
      ((a :: rest).foldl (Garden.gptIter maxErrs) s).errs = s.errs ∧
      ((a :: rest).foldl (Garden.gptIter maxErrs) s).writes = s.writes ∧
      ((a :: rest).foldl (Garden.gptIter maxErrs) s).effects = s.effects ∧
      ((a :: rest).foldl (Garden.gptIter maxErrs) s).attempts = s.attempts ∧
      ((a :: rest).foldl (Garden.gptIter maxErrs) s).step = s.step := by
  rw [List.foldl_cons, Garden.gptIter_oracle_none maxErrs s a hh hnc ho,
    Garden.foldl_gptIter_of_halted maxErrs rest _ rfl]
  exact ⟨rfl, rfl, rfl, rfl, rfl, rfl⟩

/-- Witness for C5: a transport error on the first attempt of a fresh task
halts the worker with no error counted, even though a further (failing)
attempt input follows. -/
theorem Garden.oracle_transport_error_aborts_witness :
    ((Garden.abortInput :: [Garden.failInput]).foldl
        (Garden.gptIter 15) Garden.gptInit).halted = true ∧
      ((Garden.abortInput :: [Garden.failInput]).foldl
        (Garden.gptIter 15) Garden.gptInit).errs = Garden.gptInit.errs ∧
      ((Garden.abortInput :: [Garden.failInput]).foldl
        (Garden.gptIter 15) Garden.gptInit).writes = Garden.gptInit.writes ∧
      ((Garden.abortInput :: [Garden.failInput]).foldl
        (Garden.gptIter 15) Garden.gptInit).effects = Garden.gptInit.effects ∧
      ((Garden.abortInput :: [Garden.failInput]).foldl
        (Garden.gptIter 15) Garden.gptInit).attempts = Garden.gptInit.attempts ∧
      ((Garden.abortInput :: [Garden.failInput]).foldl
        (Garden.gptIter 15) Garden.gptInit).step = Garden.gptInit.step :=
  Garden.oracle_transport_error_aborts 15 Garden.gptInit Garden.abortInput
    [Garden.failInput] rfl (by decide) rfl

/-- C3: on a Server-stage attempt where the quality gate returns a
parseable verdict whose quality field is not "good", the attempt is
treated exactly as a verification failure: the error counter is
incremented, the same stage is retried (stage unchanged, worker still
running, errMode set), no stage write occurs, the only effect of the
attempt is the single gate call — in particular the verifier (build
command) is never invoked and no artifact is written — and the verdict's
reason and suggestion text is folded into the retry context. -/
theorem Garden.quality_gate_bad_verdict_is_failure (maxErrs : Nat)
    (s : Garden.GptState) (a : Garden.AttemptInput) (qc : Garden.QualityCheck)
    (out : String)
    (hh : s.halted = false)
    (hsrv : Garden.stepsOrder.getD s.step "" = Garden.SeedlingStepServer)
    (ho : a.oracle = some out)
    (hv : a.gateResps 0 = Garden.GateResp.verdict qc)
    (hbad : ¬qc.quality = "good")
    (hbudget : s.errs + 1 ≤ maxErrs) :
    (Garden.gptIter maxErrs s a).errs = s.errs + 1 ∧
      (Garden.gptIter maxErrs s a).step = s.step ∧
      (Garden.gptIter maxErrs s a).halted = false ∧
      (Garden.gptIter maxErrs s a).errMode = true ∧
      (Garden.gptIter maxErrs s a).writes = s.writes ∧
      (Garden.gptIter maxErrs s a).effects = s.effects ++ [Garden.Effect.gateCall] ∧
      (Garden.gptIter maxErrs s a).folded = s.folded ++
        ["Quality check failed for this reason: " ++ qc.reason ++
          ". To improve the quality, we suggest you: " ++ qc.suggestions] := by
  have hnc : ¬Garden.stepsOrder.getD s.step "" = Garden.SeedlingStepComplete := by
    rw [hsrv]; decide
  have hq : Garden.qualityLoop a.gateResps 5 0 = (1, some qc.errMsg) := by
    rw [Garden.qualityLoop_unparseable_then_verdict a.gateResps 0 qc
      (by omega) (fun i hi => absurd hi (by omega)) hv, if_neg hbad]
  have hr : Garden.runSeedlingM (Garden.stepsOrder.getD s.step "")
      (Garden.codeTypeFor (Garden.stepsOrder.getD s.step "")) out a.gateResps
      a.build a.git
      = ⟨List.replicate 1 Garden.Effect.gateCall, "", some qc.errMsg⟩ := by
    rw [hsrv]
    exact Garden.runSeedlingM_server_reject _ out a.gateResps a.build a.git 1
      qc.errMsg hq
  rw [Garden.gptIter_fail maxErrs s a out _ _ _ hh hnc ho hr,
    if_neg (show ¬maxErrs < s.errs + 1 by omega)]
  refine ⟨rfl, rfl, hh, rfl, rfl, rfl, ?_⟩
  rw [Garden.foldDiag_empty]
  rfl

/-- Witness for C3 at a concrete state and input: step index 1 (Server),
zero errors so far, a "bad" verdict with reason "stub" and suggestion
"implement". -/
theorem Garden.quality_gate_bad_verdict_is_failure_witness :
    (Garden.gptIter 15 ⟨1, 0, false, [], [], [], 0, false⟩
        ⟨some "package main",
          fun _ => Garden.GateResp.verdict ⟨"bad", "stub", "implement"⟩,
          none, none, true⟩).errs = 1 ∧
      (Garden.gptIter 15 ⟨1, 0, false, [], [], [], 0, false⟩
        ⟨some "package main",
          fun _ => Garden.GateResp.verdict ⟨"bad", "stub", "implement"⟩,
          none, none, true⟩).step = 1 ∧
      (Garden.gptIter 15 ⟨1, 0, false, [], [], [], 0, false⟩
        ⟨some "package main",
          fun _ => Garden.GateResp.verdict ⟨"bad", "stub", "implement"⟩,
          none, none, true⟩).halted = false ∧
      (Garden.gptIter 15 ⟨1, 0, false, [], [], [], 0, false⟩
        ⟨some "package main",
          fun _ => Garden.GateResp.verdict ⟨"bad", "stub", "implement"⟩,
          none, none, true⟩).errMode = true ∧
      (Garden.gptIter 15 ⟨1, 0, false, [], [], [], 0, false⟩
        ⟨some "package main",
          fun _ => Garden.GateResp.verdict ⟨"bad", "stub", "implement"⟩,
          none, none, true⟩).writes = [] ∧
      (Garden.gptIter 15 ⟨1, 0, false, [], [], [], 0, false⟩
        ⟨some "package main",
          fun _ => Garden.GateResp.verdict ⟨"bad", "stub", "implement"⟩,
          none, none, true⟩).effects = [Garden.Effect.gateCall] ∧
      (Garden.gptIter 15 ⟨1, 0, false, [], [], [], 0, false⟩
        ⟨some "package main",
          fun _ => Garden.GateResp.verdict ⟨"bad", "stub", "implement"⟩,
          none, none, true⟩).folded =
        ["Quality check failed for this reason: stub. To improve the quality, we suggest you: implement"] :=
  Garden.quality_gate_bad_verdict_is_failure 15 ⟨1, 0, false, [], [], [], 0, false⟩
    ⟨some "package main",
      fun _ => Garden.GateResp.verdict ⟨"bad", "stub", "implement"⟩,
      none, none, true⟩
    ⟨"bad", "stub", "implement"⟩ "package main" rfl (by decide) rfl rfl
    (by decide) (by decide)

/-- C6: when the oracle output is empty after fence stripping and
whitespace trimming, the attempt is classified as a failure equivalent to
a verification failure — the error counter increments, the same stage is
retried with the worker still running — and no artifact write happens in
that attempt (the attempt's only effects are gate calls); moreover no
`runSeedling` call ever writes an empty artifact. -/
theorem Garden.empty_output_counts_against_budget (maxErrs : Nat)
    (s : Garden.GptState) (a : Garden.AttemptInput) (out : String)
    (hh : s.halted = false)
    (hnc : ¬Garden.stepsOrder.getD s.step "" = Garden.SeedlingStepComplete)
    (ho : a.oracle = some out)
    (hempty : Garden.stripFence
      (Garden.codeTypeFor (Garden.stepsOrder.getD s.step "")) out = "")
    (hbudget : s.errs + 1 ≤ maxErrs) :
    (Garden.gptIter maxErrs s a).errs = s.errs + 1 ∧
      (Garden.gptIter maxErrs s a).step = s.step ∧
      (Garden.gptIter maxErrs s a).halted = false ∧
      (Garden.gptIter maxErrs s a).errMode = true ∧
      (Garden.gptIter maxErrs s a).writes = s.writes ∧
      (∃ gc, (Garden.gptIter maxErrs s a).effects
        = s.effects ++ List.replicate gc Garden.Effect.gateCall) ∧
      ∀ st2 ct2 o2 resps2 b2 g2, Garden.Effect.fileWrite "" ∉
        (Garden.runSeedlingM st2 ct2 o2 resps2 b2 g2).effects := by
  have hbud : ¬maxErrs < s.errs + 1 := by omega
  by_cases hsv : Garden.stepsOrder.getD s.step "" = Garden.SeedlingStepServer
  · have hempty2 : Garden.stripFence "go" out = "" := by
      have hct : Garden.codeTypeFor (Garden.stepsOrder.getD s.step "") = "go" := by
        rw [hsv]; decide
      rwa [hct] at hempty
    rcases hqq : Garden.qualityLoop a.gateResps 5 0 with ⟨gc, e?⟩
    cases e? with
    | some e =>
      have hr : Garden.runSeedlingM (Garden.stepsOrder.getD s.step "")
          (Garden.codeTypeFor (Garden.stepsOrder.getD s.step "")) out
          a.gateResps a.build a.git
          = ⟨List.replicate gc Garden.Effect.gateCall, "", some e⟩ := by
        rw [hsv]
        exact Garden.runSeedlingM_server_reject _ out a.gateResps a.build a.git
          gc e hqq
      rw [Garden.gptIter_fail maxErrs s a out _ _ _ hh hnc ho hr, if_neg hbud]
      exact ⟨rfl, rfl, hh, rfl, rfl, ⟨gc, rfl⟩,
        fun st2 ct2 o2 r2 b2 g2 => Garden.no_empty_fileWrite st2 ct2 o2 r2 b2 g2⟩
    | none =>
      have hr : Garden.runSeedlingM (Garden.stepsOrder.getD s.step "")
          (Garden.codeTypeFor (Garden.stepsOrder.getD s.step "")) out
          a.gateResps a.build a.git
          = ⟨List.replicate gc Garden.Effect.gateCall, "",
              some "no code to run"⟩ := by
        have hct : Garden.codeTypeFor (Garden.stepsOrder.getD s.step "") = "go" := by
          rw [hsv]; decide
        rw [hct, hsv,
          Garden.runSeedlingM_server_accept "go" out a.gateResps a.build a.git
            gc hqq, if_pos hempty2]
      rw [Garden.gptIter_fail maxErrs s a out _ _ _ hh hnc ho hr, if_neg hbud]
      exact ⟨rfl, rfl, hh, rfl, rfl, ⟨gc, rfl⟩,
        fun st2 ct2 o2 r2 b2 g2 => Garden.no_empty_fileWrite st2 ct2 o2 r2 b2 g2⟩
  · have hr : Garden.runSeedlingM (Garden.stepsOrder.getD s.step "")
        (Garden.codeTypeFor (Garden.stepsOrder.getD s.step "")) out
        a.gateResps a.build a.git
        = ⟨[], "", some "no code to run"⟩ := by
      rw [Garden.runSeedlingM_not_server _ _ _ _ _ _ hsv, if_pos hempty]
    rw [Garden.gptIter_fail maxErrs s a out _ _ _ hh hnc ho hr, if_neg hbud]
    exact ⟨rfl, rfl, hh, rfl, rfl, ⟨0, rfl⟩,
      fun st2 ct2 o2 r2 b2 g2 => Garden.no_empty_fileWrite st2 ct2 o2 r2 b2 g2⟩

/-- Witness for C6: a fresh task (Protobufs stage) whose oracle returns an
output that strips to empty. -/
theorem Garden.empty_output_counts_against_budget_witness :
    (Garden.gptIter 15 Garden.gptInit
        ⟨some "", fun _ => Garden.GateResp.unparseable, none, none, true⟩).errs
      = Garden.gptInit.errs + 1 ∧
      (Garden.gptIter 15 Garden.gptInit
        ⟨some "", fun _ => Garden.GateResp.unparseable, none, none, true⟩).step
      = Garden.gptInit.step ∧
      (Garden.gptIter 15 Garden.gptInit
        ⟨some "", fun _ => Garden.GateResp.unparseable, none, none, true⟩).halted
      = false ∧
      (Garden.gptIter 15 Garden.gptInit
        ⟨some "", fun _ => Garden.GateResp.unparseable, none, none, true⟩).errMode
      = true ∧
      (Garden.gptIter 15 Garden.gptInit
        ⟨some "", fun _ => Garden.GateResp.unparseable, none, none, true⟩).writes
      = Garden.gptInit.writes ∧
      (∃ gc, (Garden.gptIter 15 Garden.gptInit
        ⟨some "", fun _ => Garden.GateResp.unparseable, none, none, true⟩).effects
        = Garden.gptInit.effects ++ List.replicate gc Garden.Effect.gateCall) ∧
      ∀ st2 ct2 o2 resps2 b2 g2, Garden.Effect.fileWrite "" ∉
        (Garden.runSeedlingM st2 ct2 o2 resps2 b2 g2).effects :=
  Garden.empty_output_counts_against_budget 15 Garden.gptInit
    ⟨some "", fun _ => Garden.GateResp.unparseable, none, none, true⟩ ""
    rfl (by decide) rfl (by decide) (by decide)

/-- C7: unparseable quality-gate verdicts are retried under the gate's own
internal allowance of 5, separate from the stage's main error budget: with
k unparseable responses followed by a "good" verdict (k < 5) the gate loop
succeeds after k + 1 calls, the attempt proceeds (write, verify, commit)
and the task's main error counter is NOT incremented; only when all 5
internal attempts are unparseable does the gate loop itself fail. -/
theorem Garden.unparseable_verdicts_internal_allowance (maxErrs : Nat)
    (s : Garden.GptState) (a : Garden.AttemptInput) (qc : Garden.QualityCheck)
    (k : Nat) (out : String)
    (hh : s.halted = false)
    (hsrv : Garden.stepsOrder.getD s.step "" = Garden.SeedlingStepServer)
    (ho : a.oracle = some out)
    (hk : k < 5)
    (hunp : ∀ i, i < k → a.gateResps i = Garden.GateResp.unparseable)
    (hv : a.gateResps k = Garden.GateResp.verdict qc)
    (hqual : qc.quality = "good")
    (hne : ¬Garden.stripFence "go" out = "")
    (hbuild : a.build = none) (hgit : a.git = none) :
    Garden.qualityLoop a.gateResps 5 0 = (k + 1, none) ∧
      (Garden.gptIter maxErrs s a).errs = s.errs ∧
      (Garden.gptIter maxErrs s a).effects = s.effects ++
        (List.replicate (k + 1) Garden.Effect.gateCall ++
          [Garden.Effect.fileWrite (Garden.stripFence "go" out),
            Garden.Effect.verifierRun, Garden.Effect.gitCommit]) ∧
      ∀ resps2 : Nat → Garden.GateResp,
        (∀ i, i < 5 → resps2 i = Garden.GateResp.unparseable) →
        Garden.qualityLoop resps2 5 0 = (5, some "max errors exceeded") := by
  have hql : Garden.qualityLoop a.gateResps 5 0 = (k + 1, none) := by
    rw [Garden.qualityLoop_unparseable_then_verdict a.gateResps k qc hk hunp hv,
      if_pos hqual]
  have hnc : ¬Garden.stepsOrder.getD s.step "" = Garden.SeedlingStepComplete := by
    rw [hsrv]; decide
  have hct : Garden.codeTypeFor (Garden.stepsOrder.getD s.step "") = "go" := by
    rw [hsrv]; decide
  have hr : Garden.runSeedlingM (Garden.stepsOrder.getD s.step "")
      (Garden.codeTypeFor (Garden.stepsOrder.getD s.step "")) out a.gateResps
      a.build a.git
      = ⟨List.replicate (k + 1) Garden.Effect.gateCall ++
          [Garden.Effect.fileWrite (Garden.stripFence "go" out),
            Garden.Effect.verifierRun, Garden.Effect.gitCommit], "", none⟩ := by
    rw [hct, hsrv,
      Garden.runSeedlingM_server_accept "go" out a.gateResps a.build a.git
        (k + 1) hql, if_neg hne, hbuild, hgit]
  rw [Garden.gptIter_ok maxErrs s a out _ _ hh hnc ho hr]
  refine ⟨hql, ?_, ?_, fun resps2 h2 => Garden.qualityLoop_all_unparseable resps2 h2⟩
  · by_cases hd : a.dbOk = true
    · rw [if_pos hd]
    · rw [if_neg hd]
  · by_cases hd : a.dbOk = true
    · rw [if_pos hd]
    · rw [if_neg hd]

/-- Witness for C7: two unparseable gate responses followed by a "good"
verdict at a Server-stage state. -/
theorem Garden.unparseable_verdicts_internal_allowance_witness :
    Garden.qualityLoop
        (fun i => if i < 2 then Garden.GateResp.unparseable
          else Garden.GateResp.verdict ⟨"good", "ok", "none"⟩) 5 0 = (3, none) ∧
      (Garden.gptIter 15 ⟨1, 0, false, [], [], [], 0, false⟩
        ⟨some "x",
          fun i => if i < 2 then Garden.GateResp.unparseable
            else Garden.GateResp.verdict ⟨"good", "ok", "none"⟩,
          none, none, true⟩).errs = 0 ∧
      (Garden.gptIter 15 ⟨1, 0, false, [], [], [], 0, false⟩
        ⟨some "x",
          fun i => if i < 2 then Garden.GateResp.unparseable
            else Garden.GateResp.verdict ⟨"good", "ok", "none"⟩,
          none, none, true⟩).effects = [] ++
        (List.replicate 3 Garden.Effect.gateCall ++
          [Garden.Effect.fileWrite (Garden.stripFence "go" "x"),
            Garden.Effect.verifierRun, Garden.Effect.gitCommit]) ∧
      ∀ resps2 : Nat → Garden.GateResp,
        (∀ i, i < 5 → resps2 i = Garden.GateResp.unparseable) →
        Garden.qualityLoop resps2 5 0 = (5, some "max errors exceeded") :=
  Garden.unparseable_verdicts_internal_allowance 15
    ⟨1, 0, false, [], [], [], 0, false⟩
    ⟨some "x",
      fun i => if i < 2 then Garden.GateResp.unparseable
        else Garden.GateResp.verdict ⟨"good", "ok", "none"⟩,
      none, none, true⟩
    ⟨"good", "ok", "none"⟩ 2 "x" rfl (by decide) rfl (by decide)
    (fun i hi => by interval_cases i <;> rfl) rfl rfl (by decide) rfl rfl

/-- Counterexample for C4: on a Server-stage attempt whose gate returns a
"bad" verdict for the oracle output "package main", the whole effect trace
of runSeedling is the single gate call — the cleaned output is NOT written
to the artifact path before the gate is invoked, and the rejected
candidate is not on disk. -/
theorem Garden.artifact_write_before_gate_cex :
    (Garden.runSeedlingM Garden.SeedlingStepServer "go" "package main"
        (fun _ => Garden.GateResp.verdict ⟨"bad", "stub", "implement"⟩)
        none none).effects
      = [Garden.Effect.gateCall] := by decide

/-- C4 (amended): on a Server-stage attempt the quality gate is invoked on
the raw oracle output before any artifact write; when the gate loop does
not accept, the attempt's effects are exactly its gate calls, so a
quality-rejected candidate is never written to the artifact path. -/
theorem Garden.quality_gate_precedes_artifact_write (codeType gptOut : String)
    (resps : Nat → Garden.GateResp) (build : Option (String × String))
    (git : Option String)
    (hrej : (Garden.qualityLoop resps 5 0).2.isSome = true) :
    (Garden.runSeedlingM Garden.SeedlingStepServer codeType gptOut resps
        build git).effects
      = List.replicate (Garden.qualityLoop resps 5 0).1 Garden.Effect.gateCall := by
  rcases hq : Garden.qualityLoop resps 5 0 with ⟨gc, e?⟩
  cases e? with
  | some e =>
    rw [Garden.runSeedlingM_server_reject codeType gptOut resps build git gc e hq]
  | none =>
    rw [hq] at hrej
    simp at hrej

/-- Witness for the amended C4: a gate that immediately rejects makes the
attempt's effect trace a single gate call. -/
theorem Garden.quality_gate_precedes_artifact_write_witness :
    ((Garden.qualityLoop
        (fun _ => Garden.GateResp.verdict ⟨"bad", "stub", "implement"⟩)
        5 0).2.isSome = true) ∧
      (Garden.runSeedlingM Garden.SeedlingStepServer "go" "x"
          (fun _ => Garden.GateResp.verdict ⟨"bad", "stub", "implement"⟩)
          none none).effects
        = List.replicate (Garden.qualityLoop
            (fun _ => Garden.GateResp.verdict ⟨"bad", "stub", "implement"⟩)
            5 0).1 Garden.Effect.gateCall :=
  ⟨by decide,
    Garden.quality_gate_precedes_artifact_write "go" "x"
      (fun _ => Garden.GateResp.verdict ⟨"bad", "stub", "implement"⟩)
      none none (by decide)⟩

/-- C8: the verifier diagnostic folded into the retry context on a failed
attempt is `foldDiag`, which never exceeds the configured trailing-line
limit: for a nonempty combined build output it has at most 25 lines (the
limit of this gptThread variant), and for any limit n >= 1 the truncation
`truncateLast n` (the other variant uses n = 10) has at most n lines,
however verbose the raw output. -/
theorem Garden.fold_diag_bounded (output errText s2 : String) (n : Nat)
    (hout : output ≠ "") (hn : 1 ≤ n) :
    Garden.numLines (Garden.foldDiag output errText) ≤ 25 ∧
      Garden.numLines (Garden.truncateLast n s2) ≤ n := by
  constructor
  · rw [Garden.foldDiag_of_ne_empty output errText hout]
    exact Garden.numLines_truncateLast 25 output (by omega)
  · exact Garden.numLines_truncateLast n s2 hn

/-- Witness for C8 at concrete strings. -/
theorem Garden.fold_diag_bounded_witness :
    Garden.numLines (Garden.foldDiag "a\nb" "e") ≤ 25 ∧
      Garden.numLines (Garden.truncateLast 2 "x\ny\nz") ≤ 2 :=
  Garden.fold_diag_bounded "a\nb" "e" "x\ny\nz" 2 (by decide) (by decide)

/-- C9 evidence: every per-stage verification command is constructed with
exec.Command and therefore carries no timeout/cancellation boundary
(cancelBound is false for every stage and platform) — a hanging build
command blocks the worker, contradicting the claim that each verification
subprocess is bounded by a caller-supplied timeout. -/
theorem Garden.buildCmd_no_cancel_boundary (name step : String)
    (darwinArm : Bool) :
    ((Garden.buildCmdFor name step darwinArm).all
      fun cmd => !cmd.cancelBound) = true := by
  unfold Garden.buildCmdFor
  split_ifs <;> rfl
